import Mathlib

/-!
Verification of the maintenance-bot timer core (`src/maintenance_bot.py`).

Shallow embedding conventions:
  * A `datetime` is modelled as an `Int`: microseconds since an epoch that
    falls on a UTC midnight (Python datetimes carry microsecond precision,
    and `datetime.utcnow()` is naive UTC, so intervals and comparisons are
    plain integer arithmetic on this count).
  * `timedelta(days = n)` is `n * usPerDay`; `dt.replace(hour=0, minute=0,
    second=0, microsecond=0)` is `dayStart`.
  * Timer dictionaries are modelled by the `Timer` structure; the registry
    `timers` (dict of dicts) by association lists `List (Int × List (String × Timer))`
    keyed by guild id and timer name.
  * Fallible handlers return their outcome explicitly; a Python early
    `return` after an error message is an outcome constructor carrying the
    in-memory timer state as it stands at that point (the dict is mutated
    in place, so partial mutations made before a rejection survive).
  * Decimal text (`str(guild_id)` / `int(guild_id_str)`, and the
    `datetime.isoformat` / `datetime.fromisoformat` pair, which the Python
    library documents as exact inverses on naive datetimes) is modelled by
    a sign flag plus the decimal digit list of the magnitude; parsing
    rejects any non-digit, mirroring `int()` / `fromisoformat` raising on
    malformed text.
-/

/-- Microseconds in one day: the unit of `timedelta(days=1)` in the model. -/
def usPerDay : Int := 86400000000

/-- Model of Python's `str.lower()` (all unit strings in this program are
ASCII, where it agrees with per-character ASCII lower-casing). -/
def pyLower (s : String) : String := ⟨s.data.map Char.toLower⟩

/-- Model of `start_time.replace(hour=0, minute=0, second=0, microsecond=0)`:
truncate a timestamp down to the UTC midnight that starts its day. -/
def dayStart (t : Int) : Int := t - t % usPerDay

/-- Result of `calculate_next_due`: the Python function raises `ValueError`
on an unrecognized unit, and returns `None` when the computed `timedelta`
is falsy (zero); both are non-`due` outcomes for every caller. -/
inductive CalcResult
  | invalidUnit
  | noDelta
  | due (t : Int)
deriving DecidableEq, Repr

/-- `calculate_next_due(interval_value, interval_unit, start_time)`
(src/maintenance_bot.py lines 155-168).  The reference time is normalized
to the start of its day, the unit is lower-cased, and the interval is added
as days / 7-day weeks / 30-day months. -/
def calculate_next_due (interval_value : Int) (interval_unit : String) (start_time : Int) :
    CalcResult :=
  let start := dayStart start_time
  let unit := pyLower interval_unit
  if unit = "days" then
    let delta := interval_value * usPerDay
    if delta = 0 then .noDelta else .due (start + delta)
  else if unit = "weeks" then
    let delta := interval_value * (7 * usPerDay)
    if delta = 0 then .noDelta else .due (start + delta)
  else if unit = "months" then
    let delta := interval_value * 30 * usPerDay
    if delta = 0 then .noDelta else .due (start + delta)
  else .invalidUnit

/-- One timer dictionary, with the fields written by `create_timer`
(src/maintenance_bot.py lines 469-479).  `next_due` and `last_reminded`
are `None`-able datetimes. -/
structure Timer where
  name : String
  interval_value : Int
  interval_unit : String
  description : String
  owner : String
  channel_id : Int
  next_due : Option Int
  is_pending : Bool
  last_reminded : Option Int
deriving DecidableEq, Repr

/-- The spec invariant: a non-pending timer has no `last_reminded`. -/
def pendingInv (t : Timer) : Prop := t.is_pending = false → t.last_reminded = none

instance (t : Timer) : Decidable (pendingInv t) := by
  unfold pendingInv; infer_instance

/-- The per-guild timer registry: insertion-ordered `name ↦ Timer` pairs
(Python dicts preserve insertion order). -/
abbrev GuildTimers := List (String × Timer)

/-- The whole registry `timers`: `guild_id ↦ (name ↦ Timer)`. -/
abbrev TimersMap := List (Int × GuildTimers)

/-- The unit validation shared by `create_timer` and `edit_timer`:
`interval_unit.lower() in ["days", "weeks", "months"]`. -/
def validUnit (u : String) : Bool :=
  pyLower u = "days" || pyLower u = "weeks" || pyLower u = "months"

/-- Failure outcomes of `create_timer` (src/maintenance_bot.py lines 437-494):
non-positive value, invalid unit, duplicate name, or a failed / falsy
`calculate_next_due` result. -/
inductive CreateOutcome
  | badValue
  | badUnit
  | duplicate
  | calcFailed
deriving DecidableEq, Repr

/-- `create_timer` for one guild's registry: validates the interval value,
the unit, and name uniqueness, computes `next_due` from the current time,
then inserts the new timer dict (lines 447-481).  On success it returns the
extended registry together with the inserted timer. -/
def create_timer (now : Int) (gts : GuildTimers) (nm : String) (interval_value : Int)
    (interval_unit : String) (owner : String) (description : String) (channel_id : Int) :
    Except CreateOutcome (GuildTimers × Timer) :=
  if interval_value ≤ 0 then .error .badValue
  else if ¬ validUnit interval_unit then .error .badUnit
  else if (gts.lookup nm).isSome then .error .duplicate
  else
    match calculate_next_due interval_value interval_unit now with
    | .due nd =>
        let t : Timer :=
          { name := nm
            interval_value := interval_value
            interval_unit := pyLower interval_unit
            description := description
            owner := owner
            channel_id := channel_id
            next_due := some nd
            is_pending := false
            last_reminded := none }
        .ok (gts ++ [(nm, t)], t)
    | _ => .error .calcFailed

/-- Failure outcomes of `done_timer` (src/maintenance_bot.py lines 499-541):
the timer is not pending (`notPending`, a soft user-facing message), or
`calculate_next_due` raised / returned a falsy delta.  The not-found case
lives at the registry lookup, outside this per-timer function. -/
inductive DoneOutcome
  | notPending
  | calcFailed
deriving DecidableEq, Repr

/-- `done_timer` applied to the timer it found: rejects a non-pending timer,
recomputes `next_due` from the current time, and only then resets
`is_pending` and `last_reminded` together (lines 513-528). -/
def done_timer (now : Int) (t : Timer) : Except DoneOutcome Timer :=
  if t.is_pending = false then .error .notPending
  else
    match calculate_next_due t.interval_value t.interval_unit now with
    | .due nd => .ok { t with is_pending := false, last_reminded := none, next_due := some nd }
    | _ => .error .calcFailed

/-- Outcomes of `edit_timer` (src/maintenance_bot.py lines 677-760).
A rejection carries the in-memory timer as it stands at the moment of the
early `return`: the Python handler mutates `timers[guild_id][name]` in
place field by field, so mutations made before the rejection survive. -/
inductive EditOutcome
  | badValue
  | badUnit
  | calcFailed
  | ok (changesMade : Bool)
deriving DecidableEq, Repr

/-- Final step of `edit_timer` (lines 730-743): if an interval field was
supplied and the timer is not pending, recompute `next_due` from the
current time; a raised / falsy calculation is rejected with the field
mutations already applied. -/
def editRecompute (now : Int) (intervalSupplied : Bool) (t : Timer) (changed : Bool) :
    Timer × EditOutcome :=
  if intervalSupplied = true ∧ t.is_pending = false then
    match calculate_next_due t.interval_value t.interval_unit now with
    | .due d => ({ t with next_due := some d }, .ok changed)
    | _ => (t, .calcFailed)
  else (t, .ok changed)

/-- `edit_timer` step: update `description` if provided (lines 725-728). -/
def editFromDesc (now : Int) (intervalSupplied : Bool) (ds : Option String) (t : Timer)
    (changed : Bool) : Timer × EditOutcome :=
  match ds with
  | some d => editRecompute now intervalSupplied { t with description := d } true
  | none => editRecompute now intervalSupplied t changed

/-- `edit_timer` step: update `owner` if provided (lines 719-722). -/
def editFromOwner (now : Int) (intervalSupplied : Bool) (ow ds : Option String) (t : Timer)
    (changed : Bool) : Timer × EditOutcome :=
  match ow with
  | some o => editFromDesc now intervalSupplied ds { t with owner := o } true
  | none => editFromDesc now intervalSupplied ds t changed

/-- `edit_timer` step: validate and update `interval_unit` if provided
(lines 709-716).  On an invalid unit the handler returns early with the
timer as already mutated by the `interval_value` step. -/
def editFromUnit (now : Int) (ivSupplied : Bool) (iu ow ds : Option String) (t : Timer)
    (changed : Bool) : Timer × EditOutcome :=
  match iu with
  | some u =>
      if validUnit u then
        editFromOwner now true ow ds { t with interval_unit := pyLower u } true
      else (t, .badUnit)
  | none => editFromOwner now ivSupplied ow ds t changed

/-- `edit_timer` applied to the timer it found (lines 698-754): each
supplied field is validated and written into the timer dict in turn, then
`next_due` is recomputed when an interval field was supplied and the timer
is not pending.  The crucial source detail kept here: a supplied
`interval_value` is validated and then written *before* the unit check, so
a unit rejection keeps that mutation. -/
def edit_timer (now : Int) (iv : Option Int) (iu ow ds : Option String) (t0 : Timer) :
    Timer × EditOutcome :=
  match iv with
  | some v =>
      if v ≤ 0 then (t0, .badValue)
      else editFromUnit now true iu ow ds { t0 with interval_value := v } true
  | none => editFromUnit now false iu ow ds t0 false

/-- Outcome of `await channel.send(...)` for one timer during a tick:
success, `discord.errors.Forbidden` (missing permission), or any other
exception; both exception kinds are caught per timer
(src/maintenance_bot.py lines 411-414). -/
inductive SendOutcome
  | ok
  | forbidden
  | err
deriving DecidableEq, Repr

/-- One notification dispatched during a tick: the "now due" embed
(line 391) or the "still pending" repeat embed (line 407), identified by
guild and timer name. -/
inductive Notif
  | due (guild : Int) (timerName : String)
  | stillPending (guild : Int) (timerName : String)
deriving DecidableEq, Repr

/-- Per-timer body of `check_timers_task` (src/maintenance_bot.py lines
372-414).  `chanOk` is whether `bot.get_channel(channel_id)` resolved (a
failed resolution skips the timer before the try block); `send` is the
outcome of the one `channel.send` this timer can perform.  Returns the
timer's state after this tick, the notifications delivered for it, and its
contribution to the `data_to_save` dirty flag.  State is advanced only
after a successful send: an exception from `send` skips the assignments
that follow it. -/
def processTimer (now reminderRepeatDays : Int) (chanOk : Bool) (send : SendOutcome)
    (guild : Int) (t : Timer) : Timer × List Notif × Bool :=
  if chanOk = false then (t, [], false)
  else
    match t.is_pending with
    | false =>
        match t.next_due with
        | some d =>
            if now ≥ d then
              match send with
              | .ok => ({ t with is_pending := true, last_reminded := some now },
                        [.due guild t.name], true)
              | _ => (t, [], false)
            else (t, [], false)
        | none => (t, [], false)
    | true =>
        match t.last_reminded with
        | some lr =>
            if now ≥ lr + reminderRepeatDays * usPerDay then
              match send with
              | .ok => ({ t with last_reminded := some now },
                        [.stillPending guild t.name], true)
              | _ => (t, [], false)
            else (t, [], false)
        | none => (t, [], false)

/-- One guild's slice of a tick: the snapshot `list(timers[guild].keys())`
visited in order, each timer processed by `processTimer`; notifications
concatenate and dirty flags accumulate.  (The source's re-check that the
key still exists only matters under concurrent command mutation, which the
pure model has none of.) -/
def tickGuild (now reminderRepeatDays : Int) (chanOk : Int → Bool)
    (send : Int → String → SendOutcome) (guild : Int) :
    GuildTimers → GuildTimers × List Notif × Bool
  | [] => ([], [], false)
  | (nm, t) :: rest =>
      let r := processTimer now reminderRepeatDays (chanOk t.channel_id) (send guild nm) guild t
      let rr := tickGuild now reminderRepeatDays chanOk send guild rest
      ((nm, r.1) :: rr.1, r.2.1 ++ rr.2.1, r.2.2 || rr.2.2)

/-- One whole tick of `check_timers_task` (lines 360-416): the snapshot
`list(timers.keys())` visited in order, with each guild's timers processed
by `tickGuild`.  The final dirty flag is the condition under which the
source calls `save_data()` once at the end. -/
def tick (now reminderRepeatDays : Int) (chanOk : Int → Bool)
    (send : Int → String → SendOutcome) :
    TimersMap → TimersMap × List Notif × Bool
  | [] => ([], [], false)
  | (g, gts) :: rest =>
      let r := tickGuild now reminderRepeatDays chanOk send g gts
      let rr := tick now reminderRepeatDays chanOk send rest
      ((g, r.1) :: rr.1, r.2.1 ++ rr.2.1, r.2.2 || rr.2.2)

/-- The decimal numeral of an integer: a sign flag plus the base-10 digit
list of its magnitude.  This models round-trippable decimal text — both
`str(guild_id)` / `int(guild_id_str)` and the `datetime.isoformat` /
`datetime.fromisoformat` pair (documented exact inverses on naive
datetimes) — at the digit level. -/
def intRepr (i : Int) : Bool × List Nat := (decide (i < 0), Nat.digits 10 i.natAbs)

/-- Parsing decimal text back to an integer; any non-digit entry makes the
whole parse fail, as `int()` and `datetime.fromisoformat` raise on
malformed text. -/
def parseIntText (s : Bool × List Nat) : Option Int :=
  if _h : ∀ d ∈ s.2, d < 10 then
    let n : Nat := Nat.ofDigits 10 s.2
    some (if s.1 then -(n : Int) else (n : Int))
  else none

/-- One timer as it sits in the saved JSON document: `save_data`
(src/maintenance_bot.py lines 84-94) copies every field and renders the
two datetime fields as text, leaving `None` as JSON null.  (The `pop` of a
legacy `reminder_repeat_days` key has no counterpart in the typed model,
whose timers never carry that key.) -/
structure SerTimer where
  name : String
  interval_value : Int
  interval_unit : String
  description : String
  owner : String
  channel_id : Int
  next_due : Option (Bool × List Nat)
  is_pending : Bool
  last_reminded : Option (Bool × List Nat)
deriving DecidableEq, Repr

/-- Serialization of one timer dict inside `save_data`. -/
def serializeTimer (t : Timer) : SerTimer :=
  { name := t.name
    interval_value := t.interval_value
    interval_unit := t.interval_unit
    description := t.description
    owner := t.owner
    channel_id := t.channel_id
    next_due := t.next_due.map intRepr
    is_pending := t.is_pending
    last_reminded := t.last_reminded.map intRepr }

/-- Deserialization of one timer dict inside `load_data` (lines 128-142):
a present timestamp is parsed, and a failed parse degrades that field to
`None` with a warning; an absent timestamp stays absent. -/
def deserializeTimer (s : SerTimer) : Timer :=
  { name := s.name
    interval_value := s.interval_value
    interval_unit := s.interval_unit
    description := s.description
    owner := s.owner
    channel_id := s.channel_id
    next_due := s.next_due.bind parseIntText
    is_pending := s.is_pending
    last_reminded := s.last_reminded.bind parseIntText }

/-- The global settings dict: the single knob `reminder_repeat_days`. -/
structure GlobalSettings where
  reminder_repeat_days : Int
deriving DecidableEq, Repr

/-- The one JSON document `save_data` writes (lines 95-98): the global
settings plus the serialized registry under stringified guild keys. -/
structure SavedDoc where
  global_settings : GlobalSettings
  timers : List ((Bool × List Nat) × List (String × SerTimer))
deriving DecidableEq, Repr

/-- `save_data` (src/maintenance_bot.py lines 80-105) as a pure document
builder: guild keys become decimal text and each timer is serialized. -/
def save_data (gs : GlobalSettings) (ts : TimersMap) : SavedDoc :=
  { global_settings := gs
    timers := ts.map fun p => (intRepr p.1, p.2.map fun q => (q.1, serializeTimer q.2)) }

/-- `load_data` (src/maintenance_bot.py lines 107-153) applied to a parsed
document: settings are taken from the document, each guild key is parsed
with `int(...)` — a key that fails to parse skips that one guild's block —
and every timer is deserialized. -/
def load_data (doc : SavedDoc) : GlobalSettings × TimersMap :=
  ({ reminder_repeat_days := doc.global_settings.reminder_repeat_days },
   doc.timers.filterMap fun p =>
     match parseIntText p.1 with
     | some g => some (g, p.2.map fun q => (q.1, deserializeTimer q.2))
     | none => none)

/-- A concrete scheduled (non-pending) timer, used to evaluate the
operations at explicit inputs: one-day interval, due at the second
midnight after the epoch. -/
def schedTimer : Timer :=
  { name := "backup"
    interval_value := 1
    interval_unit := "days"
    description := "weekly backup"
    owner := "@ops"
    channel_id := 5
    next_due := some 172800000000
    is_pending := false
    last_reminded := none }

/-- A concrete pending timer: originally due one day after the epoch,
last reminded ten days after the epoch. -/
def pendTimer : Timer :=
  { name := "filters"
    interval_value := 2
    interval_unit := "weeks"
    description := "replace filters"
    owner := "@ops"
    channel_id := 6
    next_due := some 86400000000
    is_pending := true
    last_reminded := some 864000000000 }

theorem parseIntText_intRepr (i : Int) : parseIntText (intRepr i) = some i := by
  have hd : ∀ d ∈ (intRepr i).2, d < 10 := by
    intro d hdm
    exact Nat.digits_lt_base (by norm_num) hdm
  unfold parseIntText
  rw [dif_pos hd]
  unfold intRepr
  simp only [Nat.ofDigits_digits, Option.some.injEq]
  split
  · next h =>
      simp only [decide_eq_true_eq] at h
      omega
  · next h =>
      simp only [decide_eq_true_eq] at h
      omega

theorem deserializeTimer_serializeTimer (t : Timer) :
    deserializeTimer (serializeTimer t) = t := by
  cases t with
  | mk nm iv iu ds ow ch nd ip lr =>
      cases nd <;> cases lr <;>
        simp [deserializeTimer, serializeTimer, parseIntText_intRepr]

theorem mapDeserSer (l : GuildTimers) :
    (l.map fun q => (q.1, serializeTimer q.2)).map (fun q => (q.1, deserializeTimer q.2)) = l := by
  induction l with
  | nil => rfl
  | cons hd tl ih =>
      simp only [List.map_cons, deserializeTimer_serializeTimer, ih]

/-- C3: loading the document produced by saving a state reproduces that
state exactly — settings, every guild block, every timer, and absent
timestamp fields coming back as absent. -/
theorem load_data_save_data (gs : GlobalSettings) (ts : TimersMap) :
    load_data (save_data gs ts) = (gs, ts) := by
  unfold load_data save_data
  simp only [Prod.mk.injEq, true_and]
  induction ts with
  | nil => rfl
  | cons hd tl ih =>
      simp only [List.map_cons, List.filterMap_cons, parseIntText_intRepr, mapDeserSer]
      exact congrArg (List.cons hd) ih

theorem pyLower_days : pyLower "days" = "days" := rfl

theorem pyLower_weeks : pyLower "weeks" = "weeks" := rfl

theorem pyLower_months : pyLower "months" = "months" := rfl

theorem usPerDay_pos : (0 : Int) < usPerDay := by norm_num [usPerDay]

theorem calculate_next_due_emod (v : Int) (u : String) (t r : Int)
    (h : calculate_next_due v u t = .due r) : r % usPerDay = 0 := by
  simp only [calculate_next_due] at h
  split_ifs at h
  all_goals
    first
      | exact CalcResult.noConfusion h
      | (injection h with h'
         subst h'
         unfold dayStart usPerDay
         omega)

theorem calc_formula_aux (v t : Int) (hv : v ≠ 0) :
    calculate_next_due v "days" t = .due (dayStart t + v * usPerDay) ∧
    calculate_next_due v "weeks" t = .due (dayStart t + v * (7 * usPerDay)) ∧
    calculate_next_due v "months" t = .due (dayStart t + v * 30 * usPerDay) := by
  have hus : (0 : Int) < usPerDay := usPerDay_pos
  have h1 : v * usPerDay ≠ 0 := mul_ne_zero hv (by norm_num [usPerDay])
  have h2 : v * (7 * usPerDay) ≠ 0 := mul_ne_zero hv (by norm_num [usPerDay])
  have h3 : v * 30 * usPerDay ≠ 0 :=
    mul_ne_zero (mul_ne_zero hv (by norm_num)) (by norm_num [usPerDay])
  refine ⟨?_, ?_, ?_⟩ <;>
    simp only [calculate_next_due, pyLower_days, pyLower_weeks, pyLower_months, if_true]
  · rw [if_neg h1]
  · rw [if_neg (show ¬ ("weeks" = "days") by decide), if_neg h2]
  · rw [if_neg (show ¬ ("months" = "days") by decide),
        if_neg (show ¬ ("months" = "weeks") by decide), if_neg h3]

/-- C1 (amended): for every positive `interval_value` and reference time
`t`, `calculate_next_due` returns the *start of t's day* plus
`interval_value` days for unit "days", plus `interval_value * 7` days for
"weeks", and plus `interval_value * 30` days for "months" — the reference
time is truncated to midnight before the interval is added. -/
theorem calculate_next_due_formula (v t : Int) (hv : 0 < v) :
    calculate_next_due v "days" t = .due (dayStart t + v * usPerDay) ∧
    calculate_next_due v "weeks" t = .due (dayStart t + v * (7 * usPerDay)) ∧
    calculate_next_due v "months" t = .due (dayStart t + v * 30 * usPerDay) :=
  calc_formula_aux v t (by omega)

theorem calculate_next_due_formula_witness :
    calculate_next_due 2 "days" 3600000000 = .due (dayStart 3600000000 + 2 * usPerDay) ∧
    calculate_next_due 2 "weeks" 3600000000 = .due (dayStart 3600000000 + 2 * (7 * usPerDay)) ∧
    calculate_next_due 2 "months" 3600000000 = .due (dayStart 3600000000 + 2 * 30 * usPerDay) :=
  calculate_next_due_formula 2 3600000000 (by norm_num)

/-- C1 counterexample: with the reference time one hour past midnight and
a one-day interval, the result is the next midnight — not the reference
time plus one day, as the claim as stated requires. -/
theorem calculate_next_due_counterexample :
    calculate_next_due 1 "days" 3600000000 = .due 86400000000 ∧
    (86400000000 : Int) ≠ 3600000000 + 1 * 86400000000 := by decide

/-- C9: for every positive `interval_value`, every recognized unit, and
every reference time, `calculate_next_due` produces a timestamp strictly
after the reference time. -/
theorem calculate_next_due_strictly_after (v : Int) (u : String) (t : Int) (hv : 0 < v)
    (hu : u = "days" ∨ u = "weeks" ∨ u = "months") :
    ∃ r, calculate_next_due v u t = .due r ∧ t < r := by
  have hus : (0 : Int) < usPerDay := usPerDay_pos
  have hmod : t % usPerDay < usPerDay := Int.emod_lt_of_pos t hus
  have hv1 : (1 : Int) ≤ v := by omega
  obtain ⟨h1, h2, h3⟩ := calc_formula_aux v t (by omega)
  rcases hu with h | h | h <;> subst h
  · refine ⟨_, h1, ?_⟩
    have hle : usPerDay ≤ v * usPerDay := le_mul_of_one_le_left (le_of_lt hus) hv1
    unfold dayStart
    linarith
  · refine ⟨_, h2, ?_⟩
    have hle : 7 * usPerDay ≤ v * (7 * usPerDay) := le_mul_of_one_le_left (by linarith) hv1
    unfold dayStart
    linarith
  · refine ⟨_, h3, ?_⟩
    have h30 : v * 30 * usPerDay = v * (30 * usPerDay) := by ring
    have hle : 30 * usPerDay ≤ v * (30 * usPerDay) := le_mul_of_one_le_left (by linarith) hv1
    rw [h30]
    unfold dayStart
    linarith

theorem calculate_next_due_strictly_after_witness :
    ∃ r, calculate_next_due 3 "weeks" 7200000000 = .due r ∧ 7200000000 < r :=
  calculate_next_due_strictly_after 3 "weeks" 7200000000 (by norm_num) (Or.inr (Or.inl rfl))

theorem editRecompute_next_due_cases (now : Int) (ints : Bool) (t : Timer) (c : Bool) :
    (editRecompute now ints t c).1.next_due = t.next_due ∨
    ∃ v u d, calculate_next_due v u now = .due d ∧
             (editRecompute now ints t c).1.next_due = some d := by
  by_cases h : ints = true ∧ t.is_pending = false
  · rw [editRecompute, if_pos h]
    cases hc : calculate_next_due t.interval_value t.interval_unit now with
    | due d => exact Or.inr ⟨_, _, d, hc, rfl⟩
    | invalidUnit => exact Or.inl rfl
    | noDelta => exact Or.inl rfl
  · rw [editRecompute, if_neg h]
    exact Or.inl rfl

theorem editFromDesc_next_due_cases (now : Int) (ints : Bool) (ds : Option String) (t : Timer)
    (c : Bool) :
    (editFromDesc now ints ds t c).1.next_due = t.next_due ∨
    ∃ v u d, calculate_next_due v u now = .due d ∧
             (editFromDesc now ints ds t c).1.next_due = some d := by
  cases ds with
  | some dsc => exact editRecompute_next_due_cases now ints { t with description := dsc } true
  | none => exact editRecompute_next_due_cases now ints t c

theorem editFromOwner_next_due_cases (now : Int) (ints : Bool) (ow ds : Option String) (t : Timer)
    (c : Bool) :
    (editFromOwner now ints ow ds t c).1.next_due = t.next_due ∨
    ∃ v u d, calculate_next_due v u now = .due d ∧
             (editFromOwner now ints ow ds t c).1.next_due = some d := by
  cases ow with
  | some o => exact editFromDesc_next_due_cases now ints ds { t with owner := o } true
  | none => exact editFromDesc_next_due_cases now ints ds t c

theorem editFromUnit_next_due_cases (now : Int) (ivs : Bool) (iu ow ds : Option String) (t : Timer)
    (c : Bool) :
    (editFromUnit now ivs iu ow ds t c).1.next_due = t.next_due ∨
    ∃ v u d, calculate_next_due v u now = .due d ∧
             (editFromUnit now ivs iu ow ds t c).1.next_due = some d := by
  cases iu with
  | some u =>
      rw [editFromUnit]
      by_cases hu : validUnit u
      · rw [if_pos hu]
        exact editFromOwner_next_due_cases now true ow ds { t with interval_unit := pyLower u } true
      · rw [if_neg hu]
        exact Or.inl rfl
  | none => exact editFromOwner_next_due_cases now ivs ow ds t c

theorem edit_timer_next_due_cases (now : Int) (iv : Option Int) (iu ow ds : Option String)
    (t0 : Timer) :
    (edit_timer now iv iu ow ds t0).1.next_due = t0.next_due ∨
    ∃ v u d, calculate_next_due v u now = .due d ∧
             (edit_timer now iv iu ow ds t0).1.next_due = some d := by
  cases iv with
  | some v =>
      rw [edit_timer]
      by_cases hv : v ≤ 0
      · rw [if_pos hv]
        exact Or.inl rfl
      · rw [if_neg hv]
        exact editFromUnit_next_due_cases now true iu ow ds { t0 with interval_value := v } true
  | none => exact editFromUnit_next_due_cases now false iu ow ds t0 false

/-- C10: every timestamp `calculate_next_due` returns lies at a UTC
midnight (its remainder modulo one day is zero), because the reference
time is truncated to the start of its day first; consequently the
`next_due` stored by a successful create, a successful mark-done, and any
edit (which either recomputes via the calculator or keeps the old
midnight value) lies at a UTC midnight. -/
theorem next_due_midnight :
    (∀ v u t r, calculate_next_due v u t = .due r → r % usPerDay = 0) ∧
    (∀ now gts nm v u ow ds ch res, create_timer now gts nm v u ow ds ch = .ok res →
       ∃ r, res.2.next_due = some r ∧ r % usPerDay = 0) ∧
    (∀ now t t', done_timer now t = .ok t' →
       ∃ r, t'.next_due = some r ∧ r % usPerDay = 0) ∧
    (∀ now iv iu ow ds t0,
       (∀ r, t0.next_due = some r → r % usPerDay = 0) →
       ∀ r, (edit_timer now iv iu ow ds t0).1.next_due = some r → r % usPerDay = 0) := by
  refine ⟨calculate_next_due_emod, ?_, ?_, ?_⟩
  · intro now gts nm v u ow ds ch res h
    rw [create_timer] at h
    split_ifs at h
    revert h
    cases hc : calculate_next_due v u now with
    | due nd =>
        intro h
        injection h with h'
        subst h'
        exact ⟨nd, rfl, calculate_next_due_emod v u now nd hc⟩
    | invalidUnit => intro h; exact Except.noConfusion h
    | noDelta => intro h; exact Except.noConfusion h
  · intro now t t' h
    rw [done_timer] at h
    split_ifs at h
    revert h
    cases hc : calculate_next_due t.interval_value t.interval_unit now with
    | due nd =>
        intro h
        injection h with h'
        subst h'
        exact ⟨nd, rfl, calculate_next_due_emod _ _ _ _ hc⟩
    | invalidUnit => intro h; exact Except.noConfusion h
    | noDelta => intro h; exact Except.noConfusion h
  · intro now iv iu ow ds t0 hmid r hr
    rcases edit_timer_next_due_cases now iv iu ow ds t0 with heq | ⟨v, u, d, hc, heq⟩
    · rw [heq] at hr
      exact hmid r hr
    · rw [heq] at hr
      injection hr with h'
      subst h'
      exact calculate_next_due_emod v u now _ hc

theorem next_due_midnight_witness : (86400000000 : Int) % usPerDay = 0 :=
  next_due_midnight.1 1 "days" 3600000000 86400000000 (by decide)

/-- C4: on a scheduler tick at time `now`, a non-pending timer whose
`next_due` is set and reached, whose channel resolves and whose send
succeeds, gets exactly one "now due" notification and ends the tick with
`is_pending = true`, `last_reminded = now`, and `next_due` unchanged; a
non-pending timer that is not yet due, or has no `next_due`, is left
entirely unchanged whatever the channel and send outcomes are. -/
theorem tick_scheduled_transition (now rd g : Int) (t : Timer) (hp : t.is_pending = false) :
    (∀ d, t.next_due = some d → d ≤ now →
       processTimer now rd true .ok g t
         = ({ t with is_pending := true, last_reminded := some now }, [.due g t.name], true)) ∧
    (∀ chanOk send, t.next_due = none →
       processTimer now rd chanOk send g t = (t, [], false)) ∧
    (∀ chanOk send d, t.next_due = some d → now < d →
       processTimer now rd chanOk send g t = (t, [], false)) := by
  refine ⟨?_, ?_, ?_⟩
  · intro d hd hdn
    simp [processTimer, hp, hd, ge_iff_le, hdn]
  · intro chanOk send hnd
    cases chanOk <;> simp [processTimer, hp, hnd]
  · intro chanOk send d hd hlt
    cases chanOk <;> simp [processTimer, hp, hd]
    intro hle
    exact absurd hle (by omega)

theorem tick_scheduled_transition_witness :
    processTimer 200000000000 7 true .ok 1 schedTimer
      = ({ schedTimer with is_pending := true, last_reminded := some 200000000000 },
         [.due 1 "backup"], true) :=
  (tick_scheduled_transition 200000000000 7 1 schedTimer rfl).1 172800000000 rfl (by norm_num)

/-- C5: on a scheduler tick at time `now`, a pending timer with
`last_reminded` set and `now` at least `last_reminded` plus the global
repeat interval in days gets the repeat notification and `last_reminded`
updated to `now`, while `is_pending` stays true and `next_due` is
unchanged; and no tick ever turns `is_pending` from true to false,
whatever the channel and send outcomes. -/
theorem tick_pending_repeat (now rd g : Int) (t : Timer) (hp : t.is_pending = true) :
    (∀ lr, t.last_reminded = some lr → lr + rd * usPerDay ≤ now →
       processTimer now rd true .ok g t
         = ({ t with last_reminded := some now }, [.stillPending g t.name], true)) ∧
    (∀ chanOk send, (processTimer now rd chanOk send g t).1.is_pending = true) := by
  constructor
  · intro lr hlr hge
    simp [processTimer, hp, hlr, ge_iff_le, hge]
  · intro chanOk send
    cases chanOk
    · simpa [processTimer] using hp
    · cases hlr : t.last_reminded with
      | none => simp [processTimer, hp, hlr]
      | some lr =>
          by_cases hge : now ≥ lr + rd * usPerDay
          · cases send <;> simp [processTimer, hp, hlr, hge]
          · simp [processTimer, hp, hlr, hge]

theorem tick_pending_repeat_witness :
    processTimer 1728000000000 7 true .ok 1 pendTimer
      = ({ pendTimer with last_reminded := some 1728000000000 },
         [.stillPending 1 "filters"], true) :=
  (tick_pending_repeat 1728000000000 7 1 pendTimer rfl).1 864000000000 rfl
    (by norm_num [usPerDay])

theorem processTimer_result_cases (now rd : Int) (chanOk : Bool) (send : SendOutcome) (g : Int)
    (t : Timer) :
    (processTimer now rd chanOk send g t).1 = t ∨
    (processTimer now rd chanOk send g t).1
      = { t with is_pending := true, last_reminded := some now } ∨
    ((processTimer now rd chanOk send g t).1 = { t with last_reminded := some now } ∧
      t.is_pending = true) := by
  cases chanOk with
  | false => exact Or.inl (by simp [processTimer])
  | true =>
    cases hip : t.is_pending with
    | false =>
      cases hnd : t.next_due with
      | none => exact Or.inl (by simp [processTimer, hip, hnd])
      | some d =>
        by_cases hge : now ≥ d
        · cases send with
          | ok => exact Or.inr (Or.inl (by simp [processTimer, hip, hnd, ge_iff_le, hge]))
          | forbidden => exact Or.inl (by simp [processTimer, hip, hnd, ge_iff_le, hge])
          | err => exact Or.inl (by simp [processTimer, hip, hnd, ge_iff_le, hge])
        · have hge2 : ¬ d ≤ now := by omega
          exact Or.inl (by cases send <;> simp [processTimer, hip, hnd, ge_iff_le, hge2])
    | true =>
      cases hlr : t.last_reminded with
      | none => exact Or.inl (by simp [processTimer, hip, hlr])
      | some lr =>
        by_cases hge : now ≥ lr + rd * usPerDay
        · cases send with
          | ok =>
            exact Or.inr (Or.inr ⟨by simp [processTimer, hip, hlr, ge_iff_le, hge], rfl⟩)
          | forbidden => exact Or.inl (by simp [processTimer, hip, hlr, ge_iff_le, hge])
          | err => exact Or.inl (by simp [processTimer, hip, hlr, ge_iff_le, hge])
        · have hge2 : ¬ lr + rd * usPerDay ≤ now := by omega
          exact Or.inl (by cases send <;> simp [processTimer, hip, hlr, ge_iff_le, hge2])

theorem editRecompute_pend_fields (now : Int) (ints : Bool) (t : Timer) (c : Bool) :
    (editRecompute now ints t c).1.is_pending = t.is_pending ∧
    (editRecompute now ints t c).1.last_reminded = t.last_reminded := by
  rw [editRecompute]
  split
  · cases hc : calculate_next_due t.interval_value t.interval_unit now <;> exact ⟨rfl, rfl⟩
  · exact ⟨rfl, rfl⟩

theorem editFromDesc_pend_fields (now : Int) (ints : Bool) (ds : Option String) (t : Timer)
    (c : Bool) :
    (editFromDesc now ints ds t c).1.is_pending = t.is_pending ∧
    (editFromDesc now ints ds t c).1.last_reminded = t.last_reminded := by
  cases ds with
  | some dsc => exact editRecompute_pend_fields now ints { t with description := dsc } true
  | none => exact editRecompute_pend_fields now ints t c

theorem editFromOwner_pend_fields (now : Int) (ints : Bool) (ow ds : Option String) (t : Timer)
    (c : Bool) :
    (editFromOwner now ints ow ds t c).1.is_pending = t.is_pending ∧
    (editFromOwner now ints ow ds t c).1.last_reminded = t.last_reminded := by
  cases ow with
  | some o => exact editFromDesc_pend_fields now ints ds { t with owner := o } true
  | none => exact editFromDesc_pend_fields now ints ds t c

theorem editFromUnit_pend_fields (now : Int) (ivs : Bool) (iu ow ds : Option String) (t : Timer)
    (c : Bool) :
    (editFromUnit now ivs iu ow ds t c).1.is_pending = t.is_pending ∧
    (editFromUnit now ivs iu ow ds t c).1.last_reminded = t.last_reminded := by
  cases iu with
  | some u =>
      rw [editFromUnit]
      by_cases hu : validUnit u
      · rw [if_pos hu]
        exact editFromOwner_pend_fields now true ow ds { t with interval_unit := pyLower u } true
      · rw [if_neg hu]
        exact ⟨rfl, rfl⟩
  | none => exact editFromOwner_pend_fields now ivs ow ds t c

theorem edit_timer_pend_fields (now : Int) (iv : Option Int) (iu ow ds : Option String)
    (t0 : Timer) :
    (edit_timer now iv iu ow ds t0).1.is_pending = t0.is_pending ∧
    (edit_timer now iv iu ow ds t0).1.last_reminded = t0.last_reminded := by
  cases iv with
  | some v =>
      rw [edit_timer]
      by_cases hv : v ≤ 0
      · rw [if_pos hv]
        exact ⟨rfl, rfl⟩
      · rw [if_neg hv]
        exact editFromUnit_pend_fields now true iu ow ds { t0 with interval_value := v } true
  | none => exact editFromUnit_pend_fields now false iu ow ds t0 false

/-- C7: the invariant `is_pending = false → last_reminded = none` holds
from creation on: a successful create initializes `is_pending = false`
with `last_reminded` absent, a successful mark-done resets both together,
a scheduler tick preserves the invariant (it only sets `last_reminded`
when it sets or keeps `is_pending = true`), and edit never touches either
field. -/
theorem pendingInv_all_ops :
    (∀ now gts nm v u ow ds ch res, create_timer now gts nm v u ow ds ch = .ok res →
       res.2.is_pending = false ∧ res.2.last_reminded = none) ∧
    (∀ now t t', done_timer now t = .ok t' →
       t'.is_pending = false ∧ t'.last_reminded = none) ∧
    (∀ now rd chanOk send g t, pendingInv t →
       pendingInv (processTimer now rd chanOk send g t).1) ∧
    (∀ now iv iu ow ds t0, pendingInv t0 →
       pendingInv (edit_timer now iv iu ow ds t0).1) := by
  refine ⟨?_, ?_, ?_, ?_⟩
  · intro now gts nm v u ow ds ch res h
    rw [create_timer] at h
    split_ifs at h
    revert h
    cases hc : calculate_next_due v u now with
    | due nd =>
        intro h
        injection h with h'
        subst h'
        exact ⟨rfl, rfl⟩
    | invalidUnit => intro h; exact Except.noConfusion h
    | noDelta => intro h; exact Except.noConfusion h
  · intro now t t' h
    rw [done_timer] at h
    split_ifs at h
    revert h
    cases hc : calculate_next_due t.interval_value t.interval_unit now with
    | due nd =>
        intro h
        injection h with h'
        subst h'
        exact ⟨rfl, rfl⟩
    | invalidUnit => intro h; exact Except.noConfusion h
    | noDelta => intro h; exact Except.noConfusion h
  · intro now rd chanOk send g t hinv
    rcases processTimer_result_cases now rd chanOk send g t with h | h | ⟨h, hip⟩
    · rw [h]
      exact hinv
    · rw [h]
      intro hfalse
      exact Bool.noConfusion hfalse
    · rw [h]
      intro hfalse
      have hzero : t.is_pending = false := hfalse
      rw [hip] at hzero
      exact Bool.noConfusion hzero
  · intro now iv iu ow ds t0 hinv
    obtain ⟨hip, hlr⟩ := edit_timer_pend_fields now iv iu ow ds t0
    intro hfalse
    rw [hip] at hfalse
    rw [hlr]
    exact hinv hfalse

theorem pendingInv_all_ops_witness :
    pendingInv (processTimer 0 7 true SendOutcome.ok 1 schedTimer).1 :=
  pendingInv_all_ops.2.2.1 0 7 true .ok 1 schedTimer (by decide)

theorem processTimer_failure (now rd : Int) (chanOk : Bool) (send : SendOutcome) (g : Int)
    (t : Timer) (hfail : chanOk = false ∨ send = .forbidden) :
    processTimer now rd chanOk send g t = (t, [], false) := by
  rcases hfail with h | h
  · subst h
    simp [processTimer]
  · subst h
    cases chanOk
    · simp [processTimer]
    · cases hip : t.is_pending with
      | false => cases hnd : t.next_due <;> simp [processTimer, hip, hnd]
      | true => cases hlr : t.last_reminded <;> simp [processTimer, hip, hlr]

theorem tickGuild_fst (now rd : Int) (chanOk : Int → Bool) (send : Int → String → SendOutcome)
    (g : Int) (gts : GuildTimers) :
    (tickGuild now rd chanOk send g gts).1
      = gts.map (fun q =>
          (q.1, (processTimer now rd (chanOk q.2.channel_id) (send g q.1) g q.2).1)) := by
  induction gts with
  | nil => rfl
  | cons hd tl ih =>
      obtain ⟨nm, t⟩ := hd
      simp [tickGuild, ih]

theorem tick_fst (now rd : Int) (chanOk : Int → Bool) (send : Int → String → SendOutcome)
    (ts : TimersMap) :
    (tick now rd chanOk send ts).1
      = ts.map (fun p => (p.1, (tickGuild now rd chanOk send p.1 p.2).1)) := by
  induction ts with
  | nil => rfl
  | cons hd tl ih =>
      obtain ⟨g, gts⟩ := hd
      simp [tick, ih]

/-- C6: during a tick, a timer whose channel fails to resolve or whose
send raises a permission error is left completely unchanged for this tick
(fields untouched, no notification, no dirty-flag contribution) and keeps
its place in the registry; and every timer of the snapshot is evaluated
independently — every guild block appears in the tick output and every
timer's output entry is exactly its own `processTimer` result — so one
timer's dispatch failure never aborts or affects the rest of the tick. -/
theorem tick_failure_isolated (now rd : Int) (chanOk : Int → Bool)
    (send : Int → String → SendOutcome) (ts : TimersMap) (g : Int) (gts : GuildTimers)
    (nm : String) (t : Timer) (hg : (g, gts) ∈ ts) (ht : (nm, t) ∈ gts)
    (hfail : chanOk t.channel_id = false ∨ send g nm = .forbidden) :
    processTimer now rd (chanOk t.channel_id) (send g nm) g t = (t, [], false) ∧
    (nm, t) ∈ (tickGuild now rd chanOk send g gts).1 ∧
    (g, (tickGuild now rd chanOk send g gts).1) ∈ (tick now rd chanOk send ts).1 ∧
    (∀ p, p ∈ ts →
       (p.1, (tickGuild now rd chanOk send p.1 p.2).1) ∈ (tick now rd chanOk send ts).1 ∧
       ∀ q, q ∈ p.2 →
         (q.1, (processTimer now rd (chanOk q.2.channel_id) (send p.1 q.1) p.1 q.2).1)
           ∈ (tickGuild now rd chanOk send p.1 p.2).1) := by
  have hunch := processTimer_failure now rd (chanOk t.channel_id) (send g nm) g t hfail
  refine ⟨hunch, ?_, ?_, ?_⟩
  · rw [tickGuild_fst]
    refine List.mem_map.mpr ⟨(nm, t), ht, ?_⟩
    simp [hunch]
  · rw [tick_fst]
    exact List.mem_map.mpr ⟨(g, gts), hg, rfl⟩
  · intro p hp
    constructor
    · rw [tick_fst]
      exact List.mem_map.mpr ⟨p, hp, rfl⟩
    · intro q hq
      rw [tickGuild_fst]
      exact List.mem_map.mpr ⟨q, hq, rfl⟩

theorem tick_failure_isolated_witness :
    processTimer 0 7 false SendOutcome.ok 1 schedTimer = (schedTimer, [], false) ∧
    ("backup", schedTimer)
      ∈ (tickGuild 0 7 (fun _ => false) (fun _ _ => SendOutcome.ok) 1
          [("backup", schedTimer), ("filters", pendTimer)]).1 :=
  let h := tick_failure_isolated 0 7 (fun _ => false) (fun _ _ => SendOutcome.ok)
    [(1, [("backup", schedTimer), ("filters", pendTimer)])] 1
    [("backup", schedTimer), ("filters", pendTimer)] "backup" schedTimer
    (by decide) (by decide) (Or.inl rfl)
  ⟨h.1, h.2.1⟩

/-- C2 (code bug): an edit supplying a valid `interval_value` together
with an unrecognized `interval_unit` is rejected with the unit validation
error, yet the in-memory timer keeps the `interval_value` mutation that
was applied before the unit check ran — the rejected operation is not
effect-free. -/
theorem edit_timer_rejected_unit_mutates :
    edit_timer 0 (some 3) (some "fortnights") none none schedTimer
      = ({ schedTimer with interval_value := 3 }, .badUnit) ∧
    ({ schedTimer with interval_value := 3 }).interval_value ≠ schedTimer.interval_value := by
  decide

/-- C8 counterexample: an edit supplying an `interval_value` equal to the
timer's current value — so no interval field changes value, and the timer
is not pending — still succeeds and recomputes `next_due` from the
current time, moving it away from its old value. -/
theorem edit_timer_recomputes_without_change :
    edit_timer 0 (some 1) none none none schedTimer
      = ({ schedTimer with next_due := some 86400000000 }, .ok true) ∧
    ({ schedTimer with next_due := some 86400000000 }).interval_value
        = schedTimer.interval_value ∧
    ({ schedTimer with next_due := some 86400000000 }).interval_unit
        = schedTimer.interval_unit ∧
    ({ schedTimer with next_due := some 86400000000 }).next_due ≠ schedTimer.next_due := by
  decide

theorem editFromOwner_as_recompute (now : Int) (ints : Bool) (ow ds : Option String) (t : Timer)
    (c : Bool) :
    ∃ t2 c2, editFromOwner now ints ow ds t c = editRecompute now ints t2 c2 ∧
      t2.interval_value = t.interval_value ∧ t2.interval_unit = t.interval_unit ∧
      t2.is_pending = t.is_pending ∧ t2.next_due = t.next_due := by
  cases ow <;> cases ds <;> exact ⟨_, _, rfl, rfl, rfl, rfl, rfl⟩

theorem editFromOwner_policy (now : Int) (ints : Bool) (ow ds : Option String) (tB t1 : Timer)
    (cB c : Bool) (hok : editFromOwner now ints ow ds tB cB = (t1, .ok c)) :
    (ints = true → tB.is_pending = false →
       ∃ d, calculate_next_due t1.interval_value t1.interval_unit now = .due d ∧
            t1.next_due = some d) ∧
    (tB.is_pending = true → t1.next_due = tB.next_due) ∧
    (ints = false → t1.next_due = tB.next_due) ∧
    t1.interval_value = tB.interval_value ∧
    t1.interval_unit = tB.interval_unit := by
  obtain ⟨t2, c2, heq, hiv2, hiu2, hip2, hnd2⟩ := editFromOwner_as_recompute now ints ow ds tB cB
  rw [heq, editRecompute] at hok
  by_cases hp : ints = true ∧ t2.is_pending = false
  · rw [if_pos hp] at hok
    revert hok
    cases hc : calculate_next_due t2.interval_value t2.interval_unit now with
    | due d =>
        intro hok
        have ht1 : ({ t2 with next_due := some d } : Timer) = t1 := congrArg Prod.fst hok
        subst ht1
        refine ⟨?_, ?_, ?_, hiv2, hiu2⟩
        · intro _ _
          exact ⟨d, hc, rfl⟩
        · intro hpend
          exact absurd (hip2.symm.trans hp.2) (by simp [hpend])
        · intro hints
          exact absurd hp.1 (by simp [hints])
    | invalidUnit =>
        intro hok
        exact absurd (congrArg Prod.snd hok) (by simp)
    | noDelta =>
        intro hok
        exact absurd (congrArg Prod.snd hok) (by simp)
  · rw [if_neg hp] at hok
    have ht1 : t2 = t1 := congrArg Prod.fst hok
    subst ht1
    refine ⟨?_, ?_, ?_, hiv2, hiu2⟩
    · intro hints hpend
      exact absurd ⟨hints, hip2.trans hpend⟩ hp
    · intro _
      exact hnd2
    · intro _
      exact hnd2

/-- C8 (amended): for every successful edit, `next_due` is recomputed via
the calculator from the current time — using the interval fields as they
stand after the edit — exactly when an interval field was *supplied*
(even if the supplied value equals the current one) and the timer is not
pending; it is left untouched whenever the timer is pending, regardless
of which fields are supplied, and whenever no interval field is supplied.
The trigger is supply of an interval field, not an actual change of its
value. -/
theorem edit_timer_next_due_policy (now : Int) (iv : Option Int) (iu ow ds : Option String)
    (t0 t1 : Timer) (c : Bool) (hok : edit_timer now iv iu ow ds t0 = (t1, .ok c)) :
    ((iv.isSome || iu.isSome) = true → t0.is_pending = false →
       ∃ d, calculate_next_due t1.interval_value t1.interval_unit now = .due d ∧
            t1.next_due = some d) ∧
    (t0.is_pending = true → t1.next_due = t0.next_due) ∧
    ((iv.isSome || iu.isSome) = false → t1.next_due = t0.next_due) ∧
    t1.interval_value = iv.getD t0.interval_value ∧
    t1.interval_unit = (iu.map pyLower).getD t0.interval_unit := by
  cases iv with
  | some v =>
      simp only [edit_timer] at hok
      by_cases hv : v ≤ 0
      · rw [if_pos hv] at hok
        exact absurd (congrArg Prod.snd hok) (by simp)
      · rw [if_neg hv] at hok
        cases iu with
        | some u =>
            simp only [editFromUnit] at hok
            by_cases hu : validUnit u
            · rw [if_pos hu] at hok
              obtain ⟨h1, h2, h3, h4, h5⟩ := editFromOwner_policy now true ow ds _ t1 true c hok
              refine ⟨fun _ hpend => h1 rfl hpend, fun hpend => h2 hpend, by simp, ?_, ?_⟩
              · simpa using h4
              · simpa using h5
            · rw [if_neg hu] at hok
              exact absurd (congrArg Prod.snd hok) (by simp)
        | none =>
            simp only [editFromUnit] at hok
            obtain ⟨h1, h2, h3, h4, h5⟩ := editFromOwner_policy now true ow ds _ t1 true c hok
            refine ⟨fun _ hpend => h1 rfl hpend, fun hpend => h2 hpend, by simp, ?_, ?_⟩
            · simpa using h4
            · simpa using h5
  | none =>
      simp only [edit_timer] at hok
      cases iu with
      | some u =>
          simp only [editFromUnit] at hok
          by_cases hu : validUnit u
          · rw [if_pos hu] at hok
            obtain ⟨h1, h2, h3, h4, h5⟩ := editFromOwner_policy now true ow ds _ t1 true c hok
            refine ⟨fun _ hpend => h1 rfl hpend, fun hpend => h2 hpend, by simp, ?_, ?_⟩
            · simpa using h4
            · simpa using h5
          · rw [if_neg hu] at hok
            exact absurd (congrArg Prod.snd hok) (by simp)
      | none =>
          simp only [editFromUnit] at hok
          obtain ⟨h1, h2, h3, h4, h5⟩ := editFromOwner_policy now false ow ds t0 t1 false c hok
          refine ⟨by simp, fun hpend => h2 hpend, fun _ => h3 rfl, ?_, ?_⟩
          · simpa using h4
          · simpa using h5

theorem edit_timer_next_due_policy_witness :
    ∃ d, calculate_next_due
          ({ schedTimer with next_due := some 86400000000 } : Timer).interval_value
          ({ schedTimer with next_due := some 86400000000 } : Timer).interval_unit 0 = .due d ∧
        ({ schedTimer with next_due := some 86400000000 } : Timer).next_due = some d :=
  (edit_timer_next_due_policy 0 (some 1) none none none schedTimer
    { schedTimer with next_due := some 86400000000 } true (by decide)).1 rfl rfl
